import Mathlib

/-!
# Compass frontend — shallow embedding and verification

This file embeds the TypeScript sources of the Compass frontend
(`frontend/src/utils/formatting.ts`, `frontend/src/utils/api.ts`,
`frontend/src/data/programs.ts`, `frontend/src/pages/RecommendationsPage.tsx`,
`frontend/src/types/index.ts`) into Lean and proves properties about them.

JavaScript strings are modelled as `List Char` (`JStr`); JavaScript numbers
appearing in the verified fragments are modelled as `ℚ` (they are decimal
values well inside double precision there) and machine-level float rounding
is not modelled.  `undefined` is modelled as `Option.none`.
-/

set_option maxHeartbeats 1000000

namespace Compass

/-- JavaScript strings are modelled as lists of characters. -/
abbrev JStr := List Char

/-- Conversion from Lean string literals to the `JStr` model. -/
def jstr (s : String) : JStr := s.toList

/-! ## Character classes and case mapping (models of the JS built-ins used) -/

/-- ASCII whitespace recognised by the model of `String.prototype.trim` and
`\s` (space, tab, line feed, carriage return — the forms occurring here). -/
def isWSChar (c : Char) : Bool := c.toNat = 32 || c.toNat = 9 || c.toNat = 10 || c.toNat = 13

/-- ASCII uppercase letter `[A-Z]`. -/
def isUpperAlpha (c : Char) : Bool := 65 ≤ c.toNat && c.toNat ≤ 90

/-- ASCII lowercase letter `[a-z]`. -/
def isLowerAlpha (c : Char) : Bool := 97 ≤ c.toNat && c.toNat ≤ 122

/-- ASCII digit `[0-9]`. -/
def isDigitChar (c : Char) : Bool := 48 ≤ c.toNat && c.toNat ≤ 57

/-- Model of the per-character action of `String.prototype.toUpperCase`
on the ASCII range (the strings in this code base are ASCII). -/
def upChar (c : Char) : Char :=
  if isLowerAlpha c then Char.ofNat (c.toNat - 32) else c

/-- Model of the per-character action of `String.prototype.toLowerCase`
on the ASCII range. -/
def lowChar (c : Char) : Char :=
  if isUpperAlpha c then Char.ofNat (c.toNat + 32) else c

/-- `s.toUpperCase()`. -/
def jsToUpper (l : JStr) : JStr := l.map upChar

/-- `s.toLowerCase()`. -/
def jsToLower (l : JStr) : JStr := l.map lowChar

/-- `s.trim()`: remove leading and trailing whitespace. -/
def jsTrim (l : JStr) : JStr :=
  List.rdropWhile isWSChar (l.dropWhile isWSChar)

/-! ## Basic character lemmas -/

theorem toNat_ofNat_sub32 (n : ℕ) (h1 : 97 ≤ n) (h2 : n ≤ 122) :
    (Char.ofNat (n - 32)).toNat = n - 32 := by
  interval_cases n <;> decide

theorem toNat_ofNat_add32 (n : ℕ) (h1 : 65 ≤ n) (h2 : n ≤ 90) :
    (Char.ofNat (n + 32)).toNat = n + 32 := by
  interval_cases n <;> decide

theorem upChar_toNat_of_lower (c : Char) (h : isLowerAlpha c = true) :
    (upChar c).toNat = c.toNat - 32 := by
  unfold upChar
  rw [h]
  simp only [if_true]
  unfold isLowerAlpha at h
  simp only [Bool.and_eq_true, decide_eq_true_eq] at h
  exact toNat_ofNat_sub32 c.toNat h.1 h.2

theorem isLowerAlpha_upChar (c : Char) : isLowerAlpha (upChar c) = false := by
  by_cases h : isLowerAlpha c
  · have ht := upChar_toNat_of_lower c h
    unfold isLowerAlpha at h ⊢
    simp only [Bool.and_eq_true, decide_eq_true_eq] at h
    rw [ht]
    simp only [Bool.and_eq_false_iff, decide_eq_false_iff_not]
    omega
  · unfold upChar
    rw [Bool.not_eq_true] at h
    rw [h]
    simpa using h

theorem upChar_idem (c : Char) : upChar (upChar c) = upChar c := by
  have h := isLowerAlpha_upChar c
  generalize upChar c = d at h ⊢
  unfold upChar
  rw [h]
  simp

theorem isWSChar_upChar (c : Char) : isWSChar (upChar c) = isWSChar c := by
  by_cases h : isLowerAlpha c
  · have ht := upChar_toNat_of_lower c h
    unfold isLowerAlpha at h
    simp only [Bool.and_eq_true, decide_eq_true_eq] at h
    have h1 : isWSChar (upChar c) = false := by
      unfold isWSChar
      rw [ht]
      simp only [Bool.or_eq_false_iff, decide_eq_false_iff_not]
      omega
    have h2 : isWSChar c = false := by
      unfold isWSChar
      simp only [Bool.or_eq_false_iff, decide_eq_false_iff_not]
      omega
    rw [h1, h2]
  · unfold upChar
    rw [Bool.not_eq_true] at h
    rw [h]
    simp

/-! ## Trim and case-mapping lemmas -/

theorem dropWhile_map_comm (p : Char → Bool) (f : Char → Char)
    (hf : ∀ c, p (f c) = p c) (l : JStr) :
    List.dropWhile p (l.map f) = (List.dropWhile p l).map f := by
  induction l with
  | nil => rfl
  | cons a t ih =>
    simp only [List.map_cons, List.dropWhile_cons, hf a]
    by_cases h : p a
    · rw [if_pos h, if_pos h, ih]
    · rw [if_neg h, if_neg h, List.map_cons]

theorem rdropWhile_map_comm (p : Char → Bool) (f : Char → Char)
    (hf : ∀ c, p (f c) = p c) (l : JStr) :
    List.rdropWhile p (l.map f) = (List.rdropWhile p l).map f := by
  unfold List.rdropWhile
  rw [← List.map_reverse, dropWhile_map_comm p f hf, List.map_reverse]

theorem jsTrim_jsToUpper_comm (l : JStr) :
    jsTrim (jsToUpper l) = jsToUpper (jsTrim l) := by
  unfold jsTrim jsToUpper
  rw [dropWhile_map_comm isWSChar upChar isWSChar_upChar,
    rdropWhile_map_comm isWSChar upChar isWSChar_upChar]

theorem head?_dropWhile_not (p : Char → Bool) (l : JStr) (c : Char)
    (h : (List.dropWhile p l).head? = some c) : p c = false := by
  induction l with
  | nil => simp at h
  | cons a t ih =>
    by_cases hp : p a
    · rw [List.dropWhile_cons, if_pos hp] at h
      exact ih h
    · rw [List.dropWhile_cons, if_neg hp] at h
      simp only [List.head?_cons, Option.some.injEq] at h
      rw [← h]
      simpa using hp

theorem dropWhile_of_prefix_of_dropWhile (p : Char → Bool) (l m : JStr)
    (hpre : m <+: List.dropWhile p l) :
    List.dropWhile p m = m := by
  obtain ⟨t, ht⟩ := hpre
  rcases m with _ | ⟨a, r⟩
  · rfl
  · have hh : (List.dropWhile p l).head? = some a := by
      rw [← ht]
      rfl
    have hpa := head?_dropWhile_not p l a hh
    rw [List.dropWhile_cons, if_neg (by simp [hpa])]

theorem jsTrim_idem (l : JStr) : jsTrim (jsTrim l) = jsTrim l := by
  unfold jsTrim
  have h1 : List.dropWhile isWSChar
      (List.rdropWhile isWSChar (List.dropWhile isWSChar l)) =
      List.rdropWhile isWSChar (List.dropWhile isWSChar l) :=
    dropWhile_of_prefix_of_dropWhile isWSChar l _ (List.rdropWhile_prefix _ _)
  rw [h1, List.rdropWhile_idempotent]

theorem jsToUpper_idem (l : JStr) : jsToUpper (jsToUpper l) = jsToUpper l := by
  unfold jsToUpper
  rw [List.map_map]
  exact List.map_congr_left (fun c _ => upChar_idem c)

/-- The canonical form that `completed_courses` entries are claimed to have:
fixed by both `toUpperCase` and `trim`. -/
def IsCanonCode (l : JStr) : Prop := jsToUpper l = l ∧ jsTrim l = l

/-- Normalizing an arbitrary input by `trim` then `toUpperCase` (exactly what
`addCourse` computes) lands in the canonical form. -/
theorem isCanonCode_norm (x : JStr) : IsCanonCode (jsToUpper (jsTrim x)) := by
  constructor
  · exact jsToUpper_idem (jsTrim x)
  · rw [jsTrim_jsToUpper_comm, jsTrim_idem]

/-! ## `formatting.ts` -/

/-- A `{ label, color }` object returned by several formatters. -/
structure LabelColor where
  label : JStr
  color : JStr
deriving DecidableEq, Repr

/-- After the digits of `(\d+[A-Z]?)` are consumed greedily, the remainder of
the string must be empty or one uppercase letter for the anchored match to
succeed. -/
def optUpperTail : JStr → Bool
  | [] => true
  | [c] => isUpperAlpha c
  | _ => false

/-- Whether `r` matches the anchored tail `\d+[A-Z]?$`, i.e. one or more
digits followed by at most one uppercase letter.  Greedy matching without
backtracking is faithful here: shortening `\d+` leaves a digit, which neither
`[A-Z]?` nor the anchor can consume. -/
def digitsOptLetter (r : JStr) : Bool :=
  let ds := r.takeWhile isDigitChar
  decide (ds ≠ []) && optUpperTail (r.drop ds.length)

/-- Model of `code.match(/^([A-Z]+)(\d+[A-Z]?)$/)`, returning the two capture
groups on success.  `[A-Z]+` is matched greedily; backtracking it cannot help
because a shorter letter group leaves an uppercase letter where `\d+`
requires a digit. -/
def codeRegexMatch (l : JStr) : Option (JStr × JStr) :=
  let letters := l.takeWhile isUpperAlpha
  let rest := l.drop letters.length
  if letters ≠ [] ∧ digitsOptLetter rest then some (letters, rest) else none

/-- `formatCourseCode` from `frontend/src/utils/formatting.ts`:
insert a space between the two capture groups when the code matches
`^([A-Z]+)(\d+[A-Z]?)$`, otherwise return the string unchanged. -/
def formatCourseCode (code : JStr) : JStr :=
  match codeRegexMatch code with
  | some (letters, rest) => letters ++ ' ' :: rest
  | none => code

/-- Model of `x.toFixed(1)` for the rationals produced here: round
half-away-from-zero to one decimal and print `int.frac`. -/
def ratFixed1 (q : ℚ) : JStr :=
  let n : ℤ := ⌊|q| * 10 + 1/2⌋
  let sign : JStr := if q < 0 ∧ n ≠ 0 then ['-'] else []
  sign ++ (toString (n / 10)).toList ++ '.' :: (toString (n % 10)).toList

/-- `formatRating` from `formatting.ts`.  The argument is an optional number
(`undefined` = `none`); `!rating` is true for `undefined` and for `0`.
`toFixed(1)` is modelled by `ratFixed1`. -/
def formatRating (rating : Option ℚ) : JStr :=
  match rating with
  | none => jstr "N/A"
  | some r => if r = 0 then jstr "N/A" else ratFixed1 r ++ jstr "/5.0"

/-- `formatDifficulty` from `formatting.ts`: `!difficulty` (i.e. `undefined`
or `0`) gives `Unknown`; otherwise thresholds at 2 and 3.5. -/
def formatDifficulty (difficulty : Option ℚ) : LabelColor :=
  match difficulty with
  | none => ⟨jstr "Unknown", jstr "gray"⟩
  | some d =>
    if d = 0 then ⟨jstr "Unknown", jstr "gray"⟩
    else if d ≤ 2 then ⟨jstr "Easy", jstr "green"⟩
    else if d ≤ 3.5 then ⟨jstr "Medium", jstr "yellow"⟩
    else ⟨jstr "Hard", jstr "red"⟩

/-- `formatWorkload` from `formatting.ts`: same shape as `formatDifficulty`
with `Light`/`Moderate`/`Heavy` labels. -/
def formatWorkload (workload : Option ℚ) : LabelColor :=
  match workload with
  | none => ⟨jstr "Unknown", jstr "gray"⟩
  | some w =>
    if w = 0 then ⟨jstr "Unknown", jstr "gray"⟩
    else if w ≤ 2 then ⟨jstr "Light", jstr "green"⟩
    else if w ≤ 3.5 then ⟨jstr "Moderate", jstr "yellow"⟩
    else ⟨jstr "Heavy", jstr "red"⟩

/-! ## Lemmas about `formatCourseCode` -/

theorem takeWhile_append_all (p : Char → Bool) (a m : JStr)
    (ha : ∀ x ∈ a, p x = true) :
    List.takeWhile p (a ++ m) = a ++ List.takeWhile p m := by
  induction a with
  | nil => rfl
  | cons x t ih =>
    have hx : p x = true := ha x (List.mem_cons_self x t)
    rw [List.cons_append, List.takeWhile_cons, if_pos hx, List.cons_append,
      ih (fun y hy => ha y (List.mem_cons_of_mem x hy))]

theorem codeRegexMatch_formatted (a r : JStr) (ha : ∀ x ∈ a, isUpperAlpha x = true) :
    codeRegexMatch (a ++ ' ' :: r) = none := by
  have h1 : List.takeWhile isUpperAlpha (a ++ ' ' :: r) = a := by
    rw [takeWhile_append_all isUpperAlpha a (' ' :: r) ha, List.takeWhile_cons,
      if_neg (by decide), List.append_nil]
  have h2 : digitsOptLetter (' ' :: r) = false := by
    unfold digitsOptLetter
    rw [List.takeWhile_cons, if_neg (by decide)]
    simp
  unfold codeRegexMatch
  simp only [h1, List.drop_left, h2]
  simp

theorem formatCourseCode_idem (l : JStr) :
    formatCourseCode (formatCourseCode l) = formatCourseCode l := by
  unfold formatCourseCode
  rcases h : codeRegexMatch l with _ | ⟨a, r⟩
  · simp [h]
  · have hmem : ∀ x ∈ a, isUpperAlpha x = true := by
      unfold codeRegexMatch at h
      by_cases hc : (l.takeWhile isUpperAlpha ≠ [] ∧
          digitsOptLetter (l.drop (l.takeWhile isUpperAlpha).length))
      · rw [if_pos hc] at h
        injection h with h'
        have ha : a = l.takeWhile isUpperAlpha := by
          have := congrArg Prod.fst h'
          simpa using this.symm
        intro x hx
        rw [ha] at hx
        exact List.mem_takeWhile_imp hx
      · rw [if_neg hc] at h
        exact absurd h (by simp)
    rw [codeRegexMatch_formatted a r hmem]

/-! ## `data/programs.ts` -/

/-- The `UWATERLOO_PROGRAMS` constant, as Lean string literals. -/
def rawPrograms : List String := [
  "Accounting and Financial Management (AFM)",
  "Actuarial Science (ACTSCI)",
  "Anthropology (ANTH)",
  "Applied Mathematics (AMATH)",
  "Architectural Engineering (AE)",
  "Architecture (ARCH)",
  "Bachelor of Arts (BA)",
  "Bachelor of Science (BSc)",
  "Biochemistry (BIOCHEM)",
  "Biological and Medical Physics (BIOMED PHYS)",
  "Biology (BIOL)",
  "Biomedical Engineering (BME)",
  "Biomedical Sciences (BIOMED)",
  "Biostatistics (BIOSTAT)",
  "Business Administration (Laurier) and Computer Science (Waterloo) Double Degree (BBA/BCS)",
  "Business Administration (Laurier) and Mathematics (Waterloo) Double Degree (BBA/BMath)",
  "Chemical Engineering (ChE)",
  "Chemistry (CHEM)",
  "Civil Engineering (CE)",
  "Classical Studies (CLAS)",
  "Climate and Environmental Change (CEC)",
  "Combinatorics and Optimization (C&O)",
  "Communication Studies (COMM)",
  "Computational Mathematics (COMP MATH)",
  "Computer Engineering (CE)",
  "Computer Science (CS)",
  "Computing and Financial Management (CFM)",
  "Data Science (DS)",
  "Earth Sciences (EARTH)",
  "Economics (ECON)",
  "Electrical Engineering (EE)",
  "English (ENGL)",
  "Environment and Business (ENVB)",
  "Environment, Resources and Sustainability (ERS)",
  "Environmental Engineering (EnvE)",
  "Environmental Sciences (ENVS)",
  "Fine Arts (FA)",
  "French (FR)",
  "Gender and Social Justice (GSJ)",
  "Geography and Aviation (GEOG/AVIA)",
  "Geography and Environmental Management (GEM)",
  "Geological Engineering (GEOE)",
  "Geomatics (GEOM)",
  "Global Business and Digital Arts (GBDA)",
  "Health Sciences (HS)",
  "History (HIST)",
  "Honours Arts (HA)",
  "Honours Arts and Business (HAB)",
  "Honours Science (HSci)",
  "Information Technology Management (ITM)",
  "Kinesiology (KIN)",
  "Legal Studies (LS)",
  "Liberal Studies (LS)",
  "Life Sciences (LIFE SCI)",
  "Management Engineering (MSCI)",
  "Materials and Nanosciences (MNS)",
  "Mathematical Economics (MATH ECON)",
  "Mathematical Finance (MATHFIN)",
  "Mathematical Optimization (MATH OPT)",
  "Mathematical Physics (MATH PHYS)",
  "Mathematical Studies (MATH STUD)",
  "Mathematics (MATH)",
  "Mathematics/Business Administration (MATH/BBA)",
  "Mathematics/Chartered Professional Accountancy (MATH/CPA)",
  "Mathematics/Financial Analysis and Risk Management (FARM)",
  "Mathematics/Teaching (MATH/TEACH)",
  "Mechanical Engineering (ME)",
  "Mechatronics Engineering (TRON)",
  "Medical Sciences (Waterloo) and Doctor of Medicine (St. George's University) (MedSci/MD)",
  "Medicinal Chemistry (MED CHEM)",
  "Medieval Studies (MEDVL)",
  "Music (MUSIC)",
  "Nanotechnology Engineering (NANO)",
  "Optometry (OPTOM)",
  "Peace and Conflict Studies (PACS)",
  "Pharmacy (PHARM)",
  "Philosophy (PHIL)",
  "Physical Sciences (PHYS SCI)",
  "Physics (PHYS)",
  "Physics and Astronomy (PHYS/ASTR)",
  "Planning (PLAN)",
  "Political Science (PSCI)",
  "Psychology – Bachelor of Arts (PSYCH BA)",
  "Psychology – Bachelor of Science (PSYCH BSc)",
  "Public Health (PH)",
  "Pure Mathematics (PMATH)",
  "Recreation and Leisure Studies (RLS)",
  "Recreation, Leadership and Health (RLH)",
  "Religion, Culture, and Spirituality (RCS)",
  "Science and Aviation (SCI/AVIA)",
  "Science and Business (SCI/BUS)",
  "Science and Financial Management (SFM)",
  "Sexualities, Relationships, and Families (SRF)",
  "Social Development Studies (SDS)",
  "Social Work (SW)",
  "Sociology (SOC)",
  "Software Engineering (SE)",
  "Sport and Recreation Management (SRM)",
  "Statistics (STAT)",
  "Sustainability and Financial Management (SUSM)",
  "Systems Design Engineering (SYDE)",
  "Teaching (TEACH)",
  "Theatre and Performance (TP)",
  "Therapeutic Recreation (TR)"]

/-- `UWATERLOO_PROGRAMS` in the `JStr` model. -/
def UWATERLOO_PROGRAMS : List JStr := rawPrograms.map String.toList

/-- `isValidProgram` from `programs.ts`: exact membership in the program
list. -/
def isValidProgram (program : JStr) : Bool := UWATERLOO_PROGRAMS.contains program

/-- `hay.includes(needle)` for strings: substring containment. -/
def strIncludes (hay needle : JStr) : Bool :=
  (List.range (hay.length + 1)).any (fun i => needle.isPrefixOf (hay.drop i))

/-- Scan the body of the string (final `)` removed) for the first `(` from
which the regex `\(([^)]+)\)$` can match, returning the capture group.  The
content class `[^)]+` must be non-empty and must reach the final `)`, so the
candidate position qualifies exactly when the remaining body is non-empty and
free of `)`. -/
def sfScan : JStr → Option JStr
  | [] => none
  | c :: rest =>
    if c = '(' ∧ rest ≠ [] ∧ rest.all (· ≠ ')') then some rest else sfScan rest

/-- Model of `program.match(/\(([^)]+)\)$/)`, returning the capture group:
the parenthesized shortform at the end of the program name. -/
def shortformOf (l : JStr) : Option JStr :=
  if l.getLast? = some ')' then sfScan l.dropLast else none

/-- The first pass of `searchPrograms`: exact shortform matches.  The
shortform is lowercased and compared to the search term directly and after
splitting on `/`. -/
def shortformPass (searchTerm program : JStr) : Bool :=
  if strIncludes program ['('] then
    match shortformOf program with
    | some sf =>
      let shortform := jsToLower sf
      searchTerm = shortform || (shortform.splitOn '/').contains searchTerm
    | none => false
  else false

/-- The second pass: case-insensitive substring match on the full name. -/
def substringPass (searchTerm program : JStr) : Bool :=
  strIncludes (jsToLower program) searchTerm

/-- `program.toLowerCase().split(/\s+/)`: split on maximal whitespace runs,
keeping the empty boundary tokens JavaScript produces at the ends. -/
def splitWS (l : JStr) : List JStr :=
  l.foldr (fun c acc =>
    if isWSChar c then
      match acc with
      | [] => [[], []]
      | [] :: [] => [[], []]
      | [] :: rest => [] :: rest
      | cur :: rest => [] :: cur :: rest
    else
      match acc with
      | [] => [[c]]
      | cur :: rest => (c :: cur) :: rest) [[]]

/-- The third pass: some word of the lowercased name starts with the search
term. -/
def wordStartPass (searchTerm program : JStr) : Bool :=
  (splitWS (jsToLower program)).any (fun word => searchTerm.isPrefixOf word)

/-- One `forEach` accumulation pass of `searchPrograms`: walk the program
list, appending each program for which the predicate (which may consult the
suggestions accumulated so far) holds. -/
def collectPass (f : List JStr → JStr → Bool) (init : List JStr) : List JStr :=
  UWATERLOO_PROGRAMS.foldl
    (fun acc program => if f acc program then acc ++ [program] else acc) init

/-- `const searchTerm = query.toLowerCase().trim()`. -/
def searchTermOf (query : JStr) : JStr := jsTrim (jsToLower query)

/-- The suggestions after the first `forEach` (exact shortform matches). -/
def pass1 (searchTerm : JStr) : List JStr :=
  collectPass (fun _ program => shortformPass searchTerm program) []

/-- The suggestions after the second `forEach` (substring matches not yet
suggested). -/
def pass2 (searchTerm : JStr) : List JStr :=
  collectPass
    (fun acc program => !acc.contains program && substringPass searchTerm program)
    (pass1 searchTerm)

/-- The suggestions after the conditional third `forEach` (word-prefix
matches, only when fewer than 8 suggestions were found so far and the term
has at least 2 characters). -/
def pass3 (searchTerm : JStr) : List JStr :=
  if (pass2 searchTerm).length < 8 ∧ 2 ≤ searchTerm.length then
    collectPass
      (fun acc program => !acc.contains program && wordStartPass searchTerm program)
      (pass2 searchTerm)
  else pass2 searchTerm

/-- `searchPrograms` from `programs.ts`: empty-query guard, then the three
accumulation passes, truncated to 8 suggestions. -/
def searchPrograms (query : JStr) : List JStr :=
  if query.length < 1 then []
  else (pass3 (searchTermOf query)).take 8

/-! ## Lemmas about `searchPrograms` -/

theorem string_toList_injective : Function.Injective String.toList := by
  intro a b h
  cases a
  cases b
  simp only [String.toList] at h
  exact congrArg String.mk h

theorem nodup_UWATERLOO_PROGRAMS : UWATERLOO_PROGRAMS.Nodup := by
  have h : rawPrograms.Nodup := by decide
  exact h.map string_toList_injective

theorem mem_foldl_collect (f : List JStr → JStr → Bool) (l init : List JStr) (x : JStr)
    (hx : x ∈ l.foldl (fun acc p => if f acc p then acc ++ [p] else acc) init) :
    x ∈ init ∨ x ∈ l := by
  induction l generalizing init with
  | nil => exact Or.inl hx
  | cons a t ih =>
    rw [List.foldl_cons] at hx
    rcases ih _ hx with h | h
    · by_cases hfa : f init a
      · rw [if_pos hfa] at h
        rcases List.mem_append.mp h with h' | h'
        · exact Or.inl h'
        · simp only [List.mem_singleton] at h'
          exact Or.inr (h' ▸ List.mem_cons_self a t)
      · rw [if_neg hfa] at h
        exact Or.inl h
    · exact Or.inr (List.mem_cons_of_mem a h)

theorem mem_collectPass (f : List JStr → JStr → Bool) (init : List JStr) (x : JStr)
    (hx : x ∈ collectPass f init) : x ∈ init ∨ x ∈ UWATERLOO_PROGRAMS :=
  mem_foldl_collect f UWATERLOO_PROGRAMS init x hx

theorem nodup_foldl_collect_disj (f : List JStr → JStr → Bool) (l : List JStr)
    (hl : l.Nodup) :
    ∀ init : List JStr, init.Nodup → (∀ x ∈ init, x ∉ l) →
    (l.foldl (fun acc p => if f acc p then acc ++ [p] else acc) init).Nodup := by
  induction l with
  | nil => intro init hi _; exact hi
  | cons a t ih =>
    intro init hi hdisj
    rw [List.foldl_cons]
    have hat : a ∉ t := (List.nodup_cons.mp hl).1
    have ht : t.Nodup := (List.nodup_cons.mp hl).2
    by_cases hfa : f init a
    · rw [if_pos hfa]
      refine ih ht (init ++ [a]) ?_ ?_
      · rw [List.nodup_append]
        refine ⟨hi, List.nodup_singleton a, ?_⟩
        intro x hx
        simp only [List.mem_singleton]
        intro hxa
        exact hdisj x hx (hxa ▸ List.mem_cons_self a t)
      · intro x hx
        rcases List.mem_append.mp hx with h | h
        · exact fun hxt => hdisj x h (List.mem_cons_of_mem a hxt)
        · simp only [List.mem_singleton] at h
          exact h ▸ hat
    · rw [if_neg hfa]
      exact ih ht init hi (fun x hx => fun hxt => hdisj x hx (List.mem_cons_of_mem a hxt))

theorem nodup_foldl_collect_guard (f : List JStr → JStr → Bool)
    (hf : ∀ acc p, f acc p = true → p ∉ acc) (l : List JStr) :
    ∀ init : List JStr, init.Nodup →
    (l.foldl (fun acc p => if f acc p then acc ++ [p] else acc) init).Nodup := by
  induction l with
  | nil => intro init hi; exact hi
  | cons a t ih =>
    intro init hi
    rw [List.foldl_cons]
    by_cases hfa : f init a
    · rw [if_pos hfa]
      refine ih (init ++ [a]) ?_
      rw [List.nodup_append]
      refine ⟨hi, List.nodup_singleton a, ?_⟩
      intro x hx
      simp only [List.mem_singleton]
      intro hxa
      exact hf init a hfa (hxa ▸ hx)
    · rw [if_neg hfa]
      exact ih init hi

theorem nodup_collectPass_guard (g : List JStr → JStr → Bool) (init : List JStr)
    (hi : init.Nodup) :
    (collectPass (fun acc p => !acc.contains p && g acc p) init).Nodup := by
  refine nodup_foldl_collect_guard _ ?_ UWATERLOO_PROGRAMS init hi
  intro acc p h
  simp only [Bool.and_eq_true, Bool.not_eq_true'] at h
  have := h.1
  simp at this
  exact this

/-! ## Numeric JS built-ins used by the pages -/

/-- Decimal digits to a natural number. -/
def digitsToNat (ds : JStr) : ℕ :=
  ds.foldl (fun n c => 10 * n + (c.toNat - 48)) 0

/-- Model of `parseFloat` on the strings an `<input type="number">` field can
produce: optional leading whitespace and sign, then decimal digits with an
optional fractional part.  `NaN` (no leading number at all) is modelled as
`none`; exponent suffixes are not modelled (no input in this development uses
them). -/
def jsParseFloat (l : JStr) : Option ℚ :=
  let l1 := l.dropWhile isWSChar
  let signed : Bool × JStr :=
    match l1 with
    | '-' :: r => (true, r)
    | '+' :: r => (false, r)
    | r => (false, r)
  let r := signed.2
  let intDs := r.takeWhile isDigitChar
  let r2 := r.drop intDs.length
  let fracDs : JStr :=
    match r2 with
    | '.' :: r3 => r3.takeWhile isDigitChar
    | _ => []
  if intDs = [] ∧ fracDs = [] then none
  else
    let mag : ℚ := (digitsToNat intDs : ℚ) +
      (digitsToNat fracDs : ℚ) / ((10 : ℚ) ^ fracDs.length)
    some (if signed.1 then -mag else mag)

/-- `Math.round`: round half toward positive infinity. -/
def jsRound (q : ℚ) : ℤ := ⌊q + 1/2⌋

/-- Rendering a number as a string (`${n}` for the integers used here). -/
def intToJStr (i : ℤ) : JStr := (toString i).toList

/-- Axios serializes boolean query parameters as `"true"`/`"false"`. -/
def boolToJStr (b : Bool) : JStr := if b then jstr "true" else jstr "false"

/-- Rendering a natural number (`limit.toString()`). -/
def natToJStr (n : ℕ) : JStr := (toString n).toList

/-! ## `types/index.ts` -/

/-- The `Course` interface from `types/index.ts`.  Optional fields are
`Option`; numbers that are integers in the data model are `ℤ`, `credits` is a
fractional number. -/
structure Course where
  id : ℤ
  code : JStr
  title : JStr
  description : JStr
  credits : ℚ
  prerequisites : Option JStr
  corequisites : Option JStr
  antirequisites : Option JStr
  terms_offered : JStr
  department : JStr
  level : ℤ
  url : Option JStr
deriving DecidableEq, Repr

/-- The `Recommendation` interface from `types/index.ts`: a course together
with a numeric confidence and a reasoning string. -/
structure Recommendation where
  course : Course
  confidence : ℚ
  reasoning : JStr
deriving DecidableEq, Repr

/-- The declared `StudentProfile` interface from `types/index.ts`
(lines 2–9).  Note the declared fields: there is no favorites field and no
GPA field. -/
structure StudentProfileDecl where
  program : JStr
  year : ℤ
  completed_courses : List JStr
  current_courses : List JStr
  interests : List JStr
  preferred_terms : List JStr
deriving DecidableEq, Repr

/-- The profile object `RecommendationsPage` actually builds and submits
(its `useState` initializer, lines 18–24): `program`, `year`, `interests`,
`completed_courses` and an optional `gpa`.  This is the runtime shape of the
request body; it too has no favorites field. -/
structure PageProfile where
  program : JStr
  year : ℤ
  interests : List JStr
  completed_courses : List JStr
  gpa : Option ℚ
deriving DecidableEq, Repr

/-! ## `utils/api.ts` -/

/-- HTTP method of a request. -/
inductive HttpMethod where
  | get
  | post
deriving DecidableEq, Repr

/-- A network request as configured through the axios instance: method, path,
query key/value pairs (those inlined in the URL by the source and those
passed via axios `params` are both key/value data), optional JSON body, and
the effective timeout in milliseconds. -/
structure ApiRequest where
  method : HttpMethod
  path : JStr
  urlQuery : List (JStr × JStr)
  params : List (JStr × JStr)
  body : Option PageProfile
  timeout : ℕ
deriving DecidableEq, Repr

/-- The axios instance default: `timeout: 90000` (90 s). -/
def apiDefaultTimeout : ℕ := 90000

/-- `checkHealth`. -/
def checkHealth : ApiRequest :=
  ⟨.get, jstr "/api/v1/health", [], [], none, apiDefaultTimeout⟩

/-- `getCourses(department?, limit = 50)`: `URLSearchParams` gets
`department` only when supplied, then `limit`. -/
def getCourses (department : Option JStr) (limit : ℕ := 50) : ApiRequest :=
  ⟨.get, jstr "/api/v1/courses",
    (match department with
     | some d => [(jstr "department", d)]
     | none => []) ++ [(jstr "limit", natToJStr limit)],
    [], none, apiDefaultTimeout⟩

/-- `getCourseByCode(courseCode)`. -/
def getCourseByCode (courseCode : JStr) : ApiRequest :=
  ⟨.get, jstr "/api/v1/courses/" ++ courseCode, [], [], none, apiDefaultTimeout⟩

/-- `searchCourses(query, limit = 20)` (the source URL-encodes `query` into
the query string; the key/value pair is kept structured here). -/
def searchCourses (query : JStr) (limit : ℕ := 20) : ApiRequest :=
  ⟨.get, jstr "/api/v1/courses/search",
    [(jstr "q", query), (jstr "limit", natToJStr limit)], [], none, apiDefaultTimeout⟩

/-- `getRecommendations(profile, includeMissingPrereqs = false)`: POSTs the
profile as the body, passes `include_missing_prereqs` as an axios query
parameter, and overrides the timeout to 120000 ms. -/
def getRecommendations (profile : PageProfile)
    (includeMissingPrereqs : Bool := false) : ApiRequest :=
  ⟨.post, jstr "/api/v1/recommendations", [],
    [(jstr "include_missing_prereqs", boolToJStr includeMissingPrereqs)],
    some profile, 120000⟩

/-- `explainRecommendation(courseCode, profile)`. -/
def explainRecommendation (courseCode : JStr) (profile : PageProfile) : ApiRequest :=
  ⟨.post, jstr "/api/v1/recommendations/explain", [],
    [(jstr "course_code", courseCode)], some profile, apiDefaultTimeout⟩

/-- `validatePrerequisites(courseCode, profile)`. -/
def validatePrerequisites (courseCode : JStr) (profile : PageProfile) : ApiRequest :=
  ⟨.post, jstr "/api/v1/recommendations/validate-prerequisites", [],
    [(jstr "course_code", courseCode)], some profile, apiDefaultTimeout⟩

/-- `getUWFlowData(courseCode)`. -/
def getUWFlowData (courseCode : JStr) : ApiRequest :=
  ⟨.get, jstr "/uwflow-data/" ++ courseCode, [], [], none, apiDefaultTimeout⟩

/-- `getUWFlowStats()`. -/
def getUWFlowStats : ApiRequest :=
  ⟨.get, jstr "/uwflow-stats", [], [], none, apiDefaultTimeout⟩

/-- `getDepartments()`. -/
def getDepartments : ApiRequest :=
  ⟨.get, jstr "/courses/departments", [], [], none, apiDefaultTimeout⟩

/-- The calls the API client (`utils/api.ts`) can issue, with their
arguments. -/
inductive ApiCall where
  | health
  | courses (department : Option JStr) (limit : ℕ)
  | courseByCode (courseCode : JStr)
  | search (query : JStr) (limit : ℕ)
  | recommendations (profile : PageProfile) (includeMissingPrereqs : Bool)
  | explain (courseCode : JStr) (profile : PageProfile)
  | validatePrereqs (courseCode : JStr) (profile : PageProfile)
  | uwflowData (courseCode : JStr)
  | uwflowStats
  | departments
deriving DecidableEq, Repr

/-- The request each API call issues. -/
def requestOf : ApiCall → ApiRequest
  | .health => checkHealth
  | .courses d l => getCourses d l
  | .courseByCode c => getCourseByCode c
  | .search q l => searchCourses q l
  | .recommendations p b => getRecommendations p b
  | .explain c p => explainRecommendation c p
  | .validatePrereqs c p => validatePrerequisites c p
  | .uwflowData c => getUWFlowData c
  | .uwflowStats => getUWFlowStats
  | .departments => getDepartments

/-- Whether a call is the recommendations call (the one with the longer
timeout). -/
def ApiCall.isRecommendations : ApiCall → Bool
  | .recommendations _ _ => true
  | _ => false

/-! ## `pages/RecommendationsPage.tsx` — form state machine -/

/-- The `value`s of the five year buttons (lines 228–234). -/
def yearButtonValues : List ℤ := [1, 2, 3, 4, 5]

/-- The page state relevant to the profile form: the profile plus the input
buffers and the dropdown flag. -/
structure FormState where
  profile : PageProfile
  currentInterest : JStr
  currentCourse : JStr
  programQuery : JStr
  showProgramDropdown : Bool
deriving DecidableEq, Repr

/-- The initial page state (the `useState` initializers). -/
def initState : FormState :=
  ⟨⟨[], 1, [], [], none⟩, [], [], [], false⟩

/-- The form interactions the page offers.  `selectProgram` carries the index
of the clicked suggestion in the dropdown (computed from the current query);
`yearClick` carries which of the five year buttons was clicked. -/
inductive FormEvent where
  | programInput (value : JStr)
  | selectProgram (i : ℕ)
  | interestInput (value : JStr)
  | addInterest
  | removeInterest (interest : JStr)
  | courseInput (value : JStr)
  | addCourse
  | removeCourse (course : JStr)
  | yearClick (i : Fin 5)
  | gpaChange (value : JStr)

/-- One step of the page's event handlers, transcribed from the component:
`handleProgramInputChange`, `selectProgram`, `addInterest`, `removeInterest`,
`addCourse`, `removeCourse`, the year-button `onClick` and the GPA input
`onChange`. -/
def formStep (e : FormEvent) (s : FormState) : FormState :=
  match e with
  | .programInput v =>
    { s with programQuery := v,
             profile := { s.profile with program := v },
             showProgramDropdown := decide (0 < v.length) }
  | .selectProgram i =>
    if h : i < (searchPrograms s.programQuery).length then
      let program := (searchPrograms s.programQuery).get ⟨i, h⟩
      { s with programQuery := program,
               profile := { s.profile with program := program },
               showProgramDropdown := false }
    else s
  | .interestInput v => { s with currentInterest := v }
  | .addInterest =>
    if jsTrim s.currentInterest ≠ [] ∧
        jsTrim s.currentInterest ∉ s.profile.interests then
      { s with profile := { s.profile with
                 interests := s.profile.interests ++ [jsTrim s.currentInterest] },
               currentInterest := [] }
    else s
  | .removeInterest interest =>
    { s with profile := { s.profile with
               interests := s.profile.interests.filter (· ≠ interest) } }
  | .courseInput v => { s with currentCourse := v }
  | .addCourse =>
    if jsTrim s.currentCourse ≠ [] ∧
        jsToUpper (jsTrim s.currentCourse) ∉ s.profile.completed_courses then
      { s with profile := { s.profile with
                 completed_courses := s.profile.completed_courses ++
                   [jsToUpper (jsTrim s.currentCourse)] },
               currentCourse := [] }
    else s
  | .removeCourse course =>
    { s with profile := { s.profile with
               completed_courses := s.profile.completed_courses.filter (· ≠ course) } }
  | .yearClick i =>
    { s with profile := { s.profile with year := yearButtonValues.get i } }
  | .gpaChange v =>
    { s with profile := { s.profile with
               gpa := if v = [] then none else jsParseFloat v } }

/-- States reachable from the initial page state by form interactions. -/
inductive Reachable : FormState → Prop where
  | init : Reachable initState
  | step (e : FormEvent) (s : FormState) : Reachable s → Reachable (formStep e s)

/-! ## `pages/RecommendationsPage.tsx` — request handling -/

/-- The shape of an axios error as far as the catch block inspects it:
`err.code`, `err.response?.status`, `err.response?.data?.detail`,
`err.message`. -/
structure ApiError where
  code : Option JStr
  status : Option ℤ
  detail : Option JStr
  message : Option JStr
deriving DecidableEq, Repr

/-- JavaScript `a || b` on an optional string: `b` when `a` is absent or
empty (falsy). -/
def jsOrStr (a : Option JStr) (b : JStr) : JStr :=
  match a with
  | some s => if s = [] then b else s
  | none => b

/-- `err.response?.status >= 500` (false when the status is absent). -/
def statusGE500 : Option ℤ → Bool
  | some s => 500 ≤ s
  | none => false

/-- The catch block of `handleGetRecommendations` (lines 121–132): the error
message shown for a failed request. -/
def recommendationsErrorMessage (err : ApiError) : JStr :=
  if err.code = some (jstr "ECONNABORTED") then
    jstr "Request timed out. AI recommendations usually take 15-30 seconds. The server may be busy - please try again."
  else if err.status = some 404 then
    jstr "No relevant courses found for your profile. Try adjusting your program or year."
  else if statusGE500 err.status then
    jstr "Server error. The AI engine might be busy. Please try again in a moment."
  else
    jstr "Failed to get recommendations: " ++
      jsOrStr err.detail (jsOrStr err.message (jstr "Please try again."))

/-- What the backend call resolves to, from the page's point of view. -/
inductive BackendResult where
  | ok (recs : List Recommendation)
  | fail (e : ApiError)

/-- The observable outcome of `handleGetRecommendations`: a validation error
(no request issued), a successful recommendations list, or a request failure
with the displayed message. -/
inductive HandlerOutcome where
  | notSubmitted (errorMsg : JStr)
  | success (recs : List Recommendation)
  | failure (errorMsg : JStr)
deriving DecidableEq

/-- `handleGetRecommendations` (lines 103–136), parameterized by what the
network call resolves to: validate the program, then submit and either store
the results or map the error to a message. -/
def handleGetRecommendations (p : PageProfile)
    (respond : PageProfile → BackendResult) : HandlerOutcome :=
  if jsTrim p.program = [] then
    .notSubmitted (jstr "Please select your program")
  else if ¬ isValidProgram p.program then
    .notSubmitted (jstr "Please select a valid University of Waterloo program from the dropdown")
  else
    match respond p with
    | .ok recs => .success recs
    | .fail e => .failure (recommendationsErrorMessage e)

/-- The page submits with the flag argument omitted
(`getRecommendations(profile)`, line 118), so the default applies. -/
def submitRecommendationRequest (p : PageProfile) : ApiRequest :=
  getRecommendations p

/-- What the recommendation backend replies, as far as the claims need. -/
inductive EngineReply where
  | emptyProfileError
  | ranked (recs : List Recommendation)

/-- Modelled from the spec: the backend `RecommendationEngine` is not under
`src/`.  Per §4.5/§7 it "fails with `EmptyProfile` if no favorites,
interests, or completed courses are supplied".  The submitted page profile
carries no favorites field, so the check reduces to `interests` and
`completed_courses`; the successful ranking behavior is irrelevant to the
claim and is abstracted as the parameter `rank`. -/
def specEngine (rank : PageProfile → List Recommendation) (p : PageProfile) :
    EngineReply :=
  if p.interests = [] ∧ p.completed_courses = [] then .emptyProfileError
  else .ranked (rank p)

/-- Modelled from the spec: §7 says profile-state errors such as
`EmptyProfile` "are surfaced to the caller as request-level failures with a
specific kind", i.e. the HTTP layer reports an error response (a FastAPI
`detail`), never a successful recommendation list. -/
def engineToBackend : EngineReply → BackendResult
  | .emptyProfileError => .fail ⟨none, some 400, some (jstr "EmptyProfile"), none⟩
  | .ranked recs => .ok recs

/-! ## `pages/RecommendationsPage.tsx` — rendering of results -/

/-- The user-visible fields of one rendered recommendation card
(lines 404–423). -/
structure RenderedRec where
  code : JStr
  title : JStr
  matchBadge : JStr
  description : JStr
  reasoning : JStr
deriving DecidableEq, Repr

/-- One recommendation card: course code and title in the header,
`` `${Math.round(rec.confidence * 100)}% match` `` in the badge, the course
description, and `rec.reasoning` under "Why recommended:". -/
def renderRecommendation (rec : Recommendation) : RenderedRec :=
  ⟨rec.course.code, rec.course.title,
   intToJStr (jsRound (rec.confidence * 100)) ++ jstr "% match",
   rec.course.description, rec.reasoning⟩

/-- The results pane maps `renderRecommendation` over the response list. -/
def renderRecommendations (recs : List Recommendation) : List RenderedRec :=
  recs.map renderRecommendation

/-! ## Pass-level lemmas for `searchPrograms` -/

theorem mem_pass1 (t x : JStr) (hx : x ∈ pass1 t) : x ∈ UWATERLOO_PROGRAMS := by
  rcases mem_collectPass _ _ x hx with h | h
  · simp at h
  · exact h

theorem mem_pass2 (t x : JStr) (hx : x ∈ pass2 t) : x ∈ UWATERLOO_PROGRAMS := by
  rcases mem_collectPass _ _ x hx with h | h
  · exact mem_pass1 t x h
  · exact h

theorem mem_pass3 (t x : JStr) (hx : x ∈ pass3 t) : x ∈ UWATERLOO_PROGRAMS := by
  unfold pass3 at hx
  split at hx
  · rcases mem_collectPass _ _ x hx with h | h
    · exact mem_pass2 t x h
    · exact h
  · exact mem_pass2 t x hx

theorem nodup_pass1 (t : JStr) : (pass1 t).Nodup := by
  unfold pass1 collectPass
  exact nodup_foldl_collect_disj _ UWATERLOO_PROGRAMS nodup_UWATERLOO_PROGRAMS []
    List.nodup_nil (by simp)

theorem nodup_pass2 (t : JStr) : (pass2 t).Nodup :=
  nodup_collectPass_guard _ (pass1 t) (nodup_pass1 t)

theorem nodup_pass3 (t : JStr) : (pass3 t).Nodup := by
  unfold pass3
  split
  · exact nodup_collectPass_guard _ (pass2 t) (nodup_pass2 t)
  · exact nodup_pass2 t

/-! ## The claims -/

/-- C8: for every query string, `searchPrograms` returns at most 8
suggestions, every suggestion is a member of `UWATERLOO_PROGRAMS`, the
result contains no duplicates, and a query of length less than 1 returns the
empty list. -/
theorem claim_C8 (q : JStr) :
    (searchPrograms q).length ≤ 8 ∧
    (∀ x ∈ searchPrograms q, x ∈ UWATERLOO_PROGRAMS) ∧
    (searchPrograms q).Nodup ∧
    (q.length < 1 → searchPrograms q = []) := by
  unfold searchPrograms
  by_cases hq : q.length < 1
  · rw [if_pos hq]
    exact ⟨by simp, by simp, List.nodup_nil, fun _ => rfl⟩
  · rw [if_neg hq]
    refine ⟨List.length_take_le 8 _, ?_, ?_, fun h => absurd h hq⟩
    · intro x hx
      exact mem_pass3 _ x ((List.take_sublist 8 _).subset hx)
    · exact (List.take_sublist 8 _).nodup (nodup_pass3 _)

/-- Witness for C8: the empty query (length 0 < 1) returns the empty list,
and a concrete query obeys the length bound. -/
theorem claim_C8_witness :
    searchPrograms (jstr "") = [] ∧ (searchPrograms (jstr "cs")).length ≤ 8 :=
  ⟨(claim_C8 (jstr "")).2.2.2 (by decide), (claim_C8 (jstr "cs")).1⟩

/-- C9: `formatCourseCode` is idempotent; it inserts exactly one space
between the two capture groups when the code matches
`^([A-Z]+)(\d+[A-Z]?)$`, and returns every other string unchanged. -/
theorem claim_C9 :
    (∀ l : JStr, formatCourseCode (formatCourseCode l) = formatCourseCode l) ∧
    (∀ l letters rest : JStr, codeRegexMatch l = some (letters, rest) →
      formatCourseCode l = letters ++ ' ' :: rest) ∧
    (∀ l : JStr, codeRegexMatch l = none → formatCourseCode l = l) := by
  refine ⟨formatCourseCode_idem, ?_, ?_⟩
  · intro l letters rest h
    unfold formatCourseCode
    rw [h]
  · intro l h
    unfold formatCourseCode
    rw [h]

/-- Witness for C9 at the concrete code `"CS135"`: the match succeeds with
groups `CS` and `135`, one space is inserted, and re-formatting changes
nothing. -/
theorem claim_C9_witness :
    formatCourseCode (jstr "CS135") = jstr "CS" ++ ' ' :: jstr "135" ∧
    formatCourseCode (formatCourseCode (jstr "CS135")) =
      formatCourseCode (jstr "CS135") :=
  ⟨claim_C9.2.1 (jstr "CS135") (jstr "CS") (jstr "135") (by decide),
   claim_C9.1 (jstr "CS135")⟩

/-- C10: `formatRating`, `formatDifficulty` and `formatWorkload` treat an
exact 0 like an absent value — `formatRating 0 = "N/A"`,
`formatDifficulty 0` and `formatWorkload 0` yield `Unknown` — while the
`≤ 2` branch labels (`Easy`/`Light`) are reserved for strictly positive
values. -/
theorem claim_C10 :
    formatRating (some 0) = jstr "N/A" ∧
    formatRating (some 0) = formatRating none ∧
    formatDifficulty (some 0) = ⟨jstr "Unknown", jstr "gray"⟩ ∧
    formatDifficulty (some 0) = formatDifficulty none ∧
    formatWorkload (some 0) = ⟨jstr "Unknown", jstr "gray"⟩ ∧
    formatWorkload (some 0) = formatWorkload none ∧
    (∀ d : ℚ, 0 < d → d ≤ 2 → formatDifficulty (some d) = ⟨jstr "Easy", jstr "green"⟩) ∧
    (∀ w : ℚ, 0 < w → w ≤ 2 → formatWorkload (some w) = ⟨jstr "Light", jstr "green"⟩) := by
  refine ⟨rfl, rfl, rfl, rfl, rfl, rfl, ?_, ?_⟩
  · intro d h0 h2
    simp only [formatDifficulty]
    rw [if_neg (ne_of_gt h0), if_pos h2]
  · intro w h0 h2
    simp only [formatWorkload]
    rw [if_neg (ne_of_gt h0), if_pos h2]

/-- Witness for C10: the positive-branch conjuncts applied at 1. -/
theorem claim_C10_witness :
    formatDifficulty (some 1) = ⟨jstr "Easy", jstr "green"⟩ ∧
    formatWorkload (some 1) = ⟨jstr "Light", jstr "green"⟩ :=
  ⟨claim_C10.2.2.2.2.2.2.1 1 one_pos one_le_two,
   claim_C10.2.2.2.2.2.2.2 1 one_pos one_le_two⟩

/-- C5: `getRecommendations` posts the profile as the request body with the
`include_missing_prereqs` query parameter carrying the flag; the page calls
it with the flag omitted, so it is sent as `false` by default. -/
theorem claim_C5 (p : PageProfile) (b : Bool) :
    (getRecommendations p b).body = some p ∧
    (getRecommendations p b).method = HttpMethod.post ∧
    (getRecommendations p b).path = jstr "/api/v1/recommendations" ∧
    (getRecommendations p b).params = [(jstr "include_missing_prereqs", boolToJStr b)] ∧
    (submitRecommendationRequest p).params =
      [(jstr "include_missing_prereqs", jstr "false")] :=
  ⟨rfl, rfl, rfl, rfl, rfl⟩

/-- The message of the timed-out branch of the catch block. -/
def timeoutMessage : JStr :=
  jstr "Request timed out. AI recommendations usually take 15-30 seconds. The server may be busy - please try again."

theorem failed_prefix_ne_timeout (x : JStr) :
    jstr "Failed to get recommendations: " ++ x ≠ timeoutMessage := by
  intro h
  have h1 : (jstr "Failed to get recommendations: " ++ x).head? = some 'F' := by
    have he : jstr "Failed to get recommendations: " =
        'F' :: jstr "ailed to get recommendations: " := by decide
    rw [he]
    rfl
  rw [h] at h1
  exact absurd h1 (by decide)

theorem errorMessage_eq_timeout_iff (e : ApiError) :
    recommendationsErrorMessage e = timeoutMessage ↔
      e.code = some (jstr "ECONNABORTED") := by
  constructor
  · intro h
    unfold recommendationsErrorMessage at h
    by_cases h1 : e.code = some (jstr "ECONNABORTED")
    · exact h1
    · rw [if_neg h1] at h
      by_cases h2 : e.status = some 404
      · rw [if_pos h2] at h
        exact absurd h (by decide)
      · rw [if_neg h2] at h
        by_cases h3 : statusGE500 e.status
        · rw [if_pos h3] at h
          exact absurd h (by decide)
        · rw [if_neg h3] at h
          exact absurd h (failed_prefix_ne_timeout _)
  · intro h
    unfold recommendationsErrorMessage
    rw [if_pos h]
    rfl

/-- C7: every request the API client issues carries a finite timeout —
120000 ms for the recommendations call, 90000 ms (the instance default) for
all other calls — and a timed-out recommendation request (axios code
`ECONNABORTED`) surfaces as the distinct timed-out failure message: it is
never reported as a success, and no other error condition produces that
message. -/
theorem claim_C7 :
    (∀ c : ApiCall,
      (requestOf c).timeout = if c.isRecommendations then 120000 else 90000) ∧
    (∀ (p : PageProfile) (respond : PageProfile → BackendResult) (e : ApiError),
      respond p = .fail e → e.code = some (jstr "ECONNABORTED") →
      jsTrim p.program ≠ [] → isValidProgram p.program = true →
      handleGetRecommendations p respond = .failure timeoutMessage) ∧
    (∀ (p : PageProfile) (respond : PageProfile → BackendResult) (e : ApiError)
      (recs : List Recommendation),
      respond p = .fail e →
      handleGetRecommendations p respond ≠ .success recs) ∧
    (∀ e : ApiError, recommendationsErrorMessage e = timeoutMessage ↔
      e.code = some (jstr "ECONNABORTED")) := by
  refine ⟨?_, ?_, ?_, errorMessage_eq_timeout_iff⟩
  · intro c
    cases c <;> rfl
  · intro p respond e hr hcode hprog hvalid
    have hmsg : recommendationsErrorMessage e = timeoutMessage :=
      (errorMessage_eq_timeout_iff e).mpr hcode
    unfold handleGetRecommendations
    rw [if_neg (by simpa using hprog), if_neg (by simp [hvalid]), hr]
    exact congrArg HandlerOutcome.failure hmsg
  · intro p respond e recs hr
    unfold handleGetRecommendations
    by_cases h1 : jsTrim p.program = []
    · rw [if_pos h1]
      simp
    · rw [if_neg h1]
      by_cases h2 : isValidProgram p.program
      · rw [if_neg (by simp [h2]), hr]
        simp
      · rw [if_pos (by simp [h2])]
        simp

/-- Witness for C7: a concrete valid profile whose request fails with the
axios timeout code is shown the timed-out message (and is not a success);
a concrete non-recommendations call uses the 90 s default timeout. -/
theorem claim_C7_witness :
    handleGetRecommendations
        ⟨jstr "Computer Science (CS)", 2, [jstr "ai"], [], none⟩
        (fun _ => .fail ⟨some (jstr "ECONNABORTED"), none, none, none⟩) =
      .failure timeoutMessage ∧
    handleGetRecommendations
        ⟨jstr "Computer Science (CS)", 2, [jstr "ai"], [], none⟩
        (fun _ => .fail ⟨some (jstr "ECONNABORTED"), none, none, none⟩) ≠
      .success [] ∧
    (requestOf .uwflowStats).timeout = 90000 :=
  ⟨claim_C7.2.1 _ _ ⟨some (jstr "ECONNABORTED"), none, none, none⟩ rfl rfl
      (by decide) (by decide),
   claim_C7.2.2.1 _ _ ⟨some (jstr "ECONNABORTED"), none, none, none⟩ [] rfl,
   claim_C7.1 .uwflowStats⟩

/-- C4: a profile supplying no favorites (the submitted profile has no
favorites field), no interests and no completed courses makes the modelled
recommendation engine fail with `EmptyProfile`; no such request is answered
as a successful recommendation.  (The engine itself is not under `src/`; it
is modelled from the spec, see `specEngine`/`engineToBackend`.) -/
theorem claim_C4 (rank : PageProfile → List Recommendation) (p : PageProfile)
    (hi : p.interests = []) (hc : p.completed_courses = []) :
    specEngine rank p = .emptyProfileError ∧
    (∀ recs : List Recommendation,
      handleGetRecommendations p (fun q => engineToBackend (specEngine rank q)) ≠
        .success recs) := by
  have hengine : specEngine rank p = .emptyProfileError := by
    unfold specEngine
    rw [if_pos ⟨hi, hc⟩]
  refine ⟨hengine, ?_⟩
  intro recs
  unfold handleGetRecommendations
  by_cases h1 : jsTrim p.program = []
  · rw [if_pos h1]
    simp
  · rw [if_neg h1]
    by_cases h2 : isValidProgram p.program
    · rw [if_neg (by simp [h2])]
      have hb : (fun q => engineToBackend (specEngine rank q)) p =
          BackendResult.fail ⟨none, some 400, some (jstr "EmptyProfile"), none⟩ := by
        show engineToBackend (specEngine rank p) = _
        rw [hengine]
        rfl
      rw [hb]
      simp
    · rw [if_pos (by simp [h2])]
      simp

/-- Witness for C4: the initial page profile (no interests, no completed
courses) is rejected by the modelled engine and never answered successfully. -/
theorem claim_C4_witness :
    specEngine (fun _ => []) initState.profile = .emptyProfileError ∧
    handleGetRecommendations initState.profile
        (fun q => engineToBackend (specEngine (fun _ => []) q)) ≠
      .success [] :=
  ⟨(claim_C4 (fun _ => []) initState.profile rfl rfl).1,
   (claim_C4 (fun _ => []) initState.profile rfl rfl).2 []⟩

/-- C2: every rendered element of the recommendation response is a
`Recommendation` record (course fields, numeric confidence, reasoning); the
rendered card at each position shows `round(100 × confidence)` as the match
percentage and the record's `reasoning` as the explanation. -/
theorem claim_C2 (recs : List Recommendation) (i : ℕ) (rec : Recommendation)
    (h : recs[i]? = some rec) :
    (renderRecommendations recs).length = recs.length ∧
    (renderRecommendations recs)[i]? = some (renderRecommendation rec) ∧
    (renderRecommendation rec).matchBadge =
      intToJStr (jsRound (100 * rec.confidence)) ++ jstr "% match" ∧
    (renderRecommendation rec).reasoning = rec.reasoning := by
  refine ⟨by simp [renderRecommendations], ?_, ?_, rfl⟩
  · rw [renderRecommendations, List.getElem?_map, h]
    rfl
  · show intToJStr (jsRound (rec.confidence * 100)) ++ jstr "% match" = _
    rw [mul_comm]

/-- A sample course for the C2 witness. -/
def sampleCourse : Course :=
  ⟨1, jstr "CS136", jstr "Algorithm Design", jstr "Builds on CS 135.",
   1/2, some (jstr "CS135"), none, none, jstr "F,W,S", jstr "CS", 100, none⟩

/-- A sample recommendation (confidence 0.87) for the C2 witness. -/
def sampleRec : Recommendation :=
  ⟨sampleCourse, 87/100, jstr "Strong similarity to your favourites."⟩

/-- Witness for C2: on a concrete one-element response with confidence 0.87
the rendered badge is literally `"87% match"` and the explanation is the
record's reasoning string. -/
theorem claim_C2_witness :
    (renderRecommendations [sampleRec])[0]? = some (renderRecommendation sampleRec) ∧
    (renderRecommendation sampleRec).matchBadge = jstr "87% match" ∧
    (renderRecommendation sampleRec).reasoning =
      jstr "Strong similarity to your favourites." := by
  have h := claim_C2 [sampleRec] 0 sampleRec rfl
  refine ⟨h.2.1, ?_, h.2.2.2⟩
  rw [h.2.2.1]
  have h87 : jsRound (100 * sampleRec.confidence) = 87 := by
    show jsRound (100 * (87/100 : ℚ)) = 87
    unfold jsRound
    norm_num
  rw [h87]
  decide

/-- The `completed_courses` invariant, proved by induction over reachable
form states: entries are canonical (trimmed, uppercased) and duplicate-free. -/
theorem completed_courses_invariant (s : FormState) (h : Reachable s) :
    s.profile.completed_courses.Nodup ∧
    ∀ c ∈ s.profile.completed_courses, IsCanonCode c := by
  induction h with
  | init => exact ⟨List.nodup_nil, fun c hc => absurd hc (List.not_mem_nil c)⟩
  | step e s' hs ih =>
    cases e with
    | programInput v => exact ih
    | selectProgram i =>
      simp only [formStep]
      split
      · exact ih
      · exact ih
    | interestInput v => exact ih
    | addInterest =>
      simp only [formStep]
      split
      · exact ih
      · exact ih
    | removeInterest interest => exact ih
    | courseInput v => exact ih
    | addCourse =>
      simp only [formStep]
      split
      · rename_i hguard
        refine ⟨?_, ?_⟩
        · show (s'.profile.completed_courses ++
            [jsToUpper (jsTrim s'.currentCourse)]).Nodup
          rw [List.nodup_append]
          refine ⟨ih.1, List.nodup_singleton _, ?_⟩
          intro x hx
          simp only [List.mem_singleton]
          intro hxn
          exact hguard.2 (hxn ▸ hx)
        · intro c hc
          rcases List.mem_append.mp hc with hcl | hcr
          · exact ih.2 c hcl
          · simp only [List.mem_singleton] at hcr
            exact hcr ▸ isCanonCode_norm _
      · exact ih
    | removeCourse course =>
      refine ⟨ih.1.filter _, ?_⟩
      intro c hc
      exact ih.2 c (List.mem_of_mem_filter hc)
    | yearClick i => exact ih
    | gpaChange v => exact ih

/-- C3: every code stored in `completed_courses` is canonical (uppercase and
whitespace-trimmed) and appears at most once, in every reachable form state;
`addCourse` appends `trim(input).toUpperCase()` exactly when the trim is
non-empty and the normalized code is not yet present (and is a no-op when it
is present), and `removeCourse` only removes elements. -/
theorem claim_C3 :
    (∀ s : FormState, Reachable s →
      s.profile.completed_courses.Nodup ∧
      ∀ c ∈ s.profile.completed_courses, IsCanonCode c) ∧
    (∀ s : FormState, jsTrim s.currentCourse ≠ [] →
      jsToUpper (jsTrim s.currentCourse) ∉ s.profile.completed_courses →
      (formStep .addCourse s).profile.completed_courses =
        s.profile.completed_courses ++ [jsToUpper (jsTrim s.currentCourse)]) ∧
    (∀ s : FormState,
      jsToUpper (jsTrim s.currentCourse) ∈ s.profile.completed_courses →
      formStep .addCourse s = s) ∧
    (∀ (s : FormState) (course : JStr),
      (formStep (.removeCourse course) s).profile.completed_courses ⊆
        s.profile.completed_courses) := by
  refine ⟨completed_courses_invariant, ?_, ?_, ?_⟩
  · intro s h1 h2
    simp only [formStep]
    rw [if_pos ⟨h1, h2⟩]
  · intro s hmem
    simp only [formStep]
    rw [if_neg (fun hg => hg.2 hmem)]
  · intro s course x hx
    exact List.mem_of_mem_filter hx

/-- Witness for C3: typing `" cs135 "` and clicking add on the fresh page
appends the canonical `"CS135"`; the resulting reachable state satisfies the
invariant. -/
theorem claim_C3_witness :
    ((formStep .addCourse
        (formStep (.courseInput (jstr " cs135 ")) initState)).profile.completed_courses.Nodup ∧
      ∀ c ∈ (formStep .addCourse
        (formStep (.courseInput (jstr " cs135 ")) initState)).profile.completed_courses,
        IsCanonCode c) ∧
    (formStep .addCourse
        (formStep (.courseInput (jstr " cs135 ")) initState)).profile.completed_courses =
      (formStep (.courseInput (jstr " cs135 ")) initState).profile.completed_courses ++
        [jsToUpper (jsTrim (jstr " cs135 "))] :=
  ⟨claim_C3.1 _ (Reachable.step _ _ (Reachable.step _ _ Reachable.init)),
   claim_C3.2.1 (formStep (.courseInput (jstr " cs135 ")) initState)
     (by decide) (by decide)⟩

/-- Evaluation of the GPA field after typing `"5"` into the GPA input of the
fresh page. -/
theorem jsParseFloat_five : jsParseFloat (jstr "5") = some 5 := by
  have h5 : digitsToNat ['5'] = 5 := by decide
  show some (((digitsToNat ['5'] : ℚ)) +
    ((digitsToNat ([] : JStr) : ℚ)) / (10 : ℚ) ^ (List.length ([] : JStr))) = some 5
  rw [h5]
  norm_num [digitsToNat]

/-- Counterexample to C6: typing `"5"` into the GPA input stores `gpa = 5`
in the profile — the `min`/`max` attributes of the number input do not clamp
the typed value and no handler checks the range — so a reachable, submittable
profile carries a GPA outside [0, 4]. -/
theorem claim_C6_counterexample :
    Reachable (formStep (.gpaChange (jstr "5")) initState) ∧
    (formStep (.gpaChange (jstr "5")) initState).profile.gpa = some 5 ∧
    ¬ ((5 : ℚ) ≤ 4) := by
  refine ⟨Reachable.step _ _ Reachable.init, ?_, by norm_num⟩
  show (if jstr "5" = ([] : JStr) then none else jsParseFloat (jstr "5")) = some 5
  rw [if_neg (by decide)]
  exact jsParseFloat_five

/-- C6 (amended): every reachable form state has an integer year between 1
and 5 — the year buttons only offer these values — but the GPA bound of the
original claim does not hold (see the counterexample); the GPA field stores
whatever number is typed. -/
theorem claim_C6_amended (s : FormState) (h : Reachable s) :
    1 ≤ s.profile.year ∧ s.profile.year ≤ 5 := by
  induction h with
  | init => exact ⟨le_refl 1, by decide⟩
  | step e s' hs ih =>
    cases e with
    | programInput v => exact ih
    | selectProgram i =>
      simp only [formStep]
      split
      · exact ih
      · exact ih
    | interestInput v => exact ih
    | addInterest =>
      simp only [formStep]
      split
      · exact ih
      · exact ih
    | removeInterest interest => exact ih
    | courseInput v => exact ih
    | addCourse =>
      simp only [formStep]
      split
      · exact ih
      · exact ih
    | removeCourse course => exact ih
    | yearClick i =>
      show 1 ≤ yearButtonValues.get i ∧ yearButtonValues.get i ≤ 5
      revert i
      decide
    | gpaChange v => exact ih

/-- Witness for C6 (amended): after clicking the third year button the year
is within bounds. -/
theorem claim_C6_witness :
    1 ≤ (formStep (.yearClick 2) initState).profile.year ∧
    (formStep (.yearClick 2) initState).profile.year ≤ 5 :=
  claim_C6_amended _ (Reachable.step _ _ Reachable.init)

/-- Counterexample to C1: entering `"CS135"` under "Favourite Courses" on
the fresh page stores the code in `completed_courses` — the submitted body
is this very profile, which has no separate favorites field. -/
theorem claim_C1_counterexample :
    Reachable (formStep .addCourse (formStep (.courseInput (jstr "CS135")) initState)) ∧
    (formStep .addCourse
        (formStep (.courseInput (jstr "CS135")) initState)).profile.completed_courses =
      [jstr "CS135"] ∧
    (submitRecommendationRequest
        (formStep .addCourse
          (formStep (.courseInput (jstr "CS135")) initState)).profile).body =
      some (formStep .addCourse
        (formStep (.courseInput (jstr "CS135")) initState)).profile := by
  refine ⟨Reachable.step _ _ (Reachable.step _ _ Reachable.init), ?_, rfl⟩
  decide

/-- C1 (amended): every course entered under "Favourite Courses" is
normalized and appended to the profile's `completed_courses` field — the
runtime profile (and the declared `StudentProfile` interface) has no
favorites field, so favourite and completed courses share `completed_courses`
in the submitted body. -/
theorem claim_C1_amended (s : FormState)
    (h1 : jsTrim s.currentCourse ≠ [])
    (h2 : jsToUpper (jsTrim s.currentCourse) ∉ s.profile.completed_courses) :
    jsToUpper (jsTrim s.currentCourse) ∈
      (formStep .addCourse s).profile.completed_courses ∧
    (submitRecommendationRequest (formStep .addCourse s).profile).body =
      some (formStep .addCourse s).profile := by
  refine ⟨?_, rfl⟩
  simp only [formStep]
  rw [if_pos ⟨h1, h2⟩]
  exact List.mem_append.mpr (Or.inr (List.mem_singleton.mpr rfl))

/-- Witness for C1 (amended): the concrete favourite entry `"STAT230"` ends
up in the `completed_courses` of the posted body. -/
theorem claim_C1_witness :
    jsToUpper (jsTrim (jstr "STAT230")) ∈
      (formStep .addCourse
        (formStep (.courseInput (jstr "STAT230")) initState)).profile.completed_courses ∧
    (submitRecommendationRequest
        (formStep .addCourse
          (formStep (.courseInput (jstr "STAT230")) initState)).profile).body =
      some (formStep .addCourse
        (formStep (.courseInput (jstr "STAT230")) initState)).profile :=
  claim_C1_amended (formStep (.courseInput (jstr "STAT230")) initState)
    (by decide) (by decide)

end Compass
